import Mathlib

/-!
Verification of the 2048 game core (`main.py`).

A shallow embedding of the grid engine (`Board`) and game controller (`Game`)
of the 2048 implementation, together with proofs of the specified properties.

Modelling conventions:
* A grid is a list of rows of natural numbers (`0` = empty cell).
* Randomness (`random.choice`, `random.random() < 0.1`) is replaced by an
  explicit oracle: a natural number `k` selecting the spawned cell
  (`cells[k % len(cells)]`) and a boolean `four` selecting value 4 over 2.
* Tk UI calls (`paintGrid`, dialogs) have no game-state effect and are dropped.
-/

namespace Game2048

/-- A grid: list of rows, each a list of cell values; `0` is an empty cell.
The application always uses a 4×4 grid (`Board(root, size=4)`). -/
abbrev Grid := List (List Nat)

/-- Cell access `gridCell[i][j]` (out-of-range reads as 0; the program never
reads out of range on well-formed grids). -/
def cellAt (g : Grid) (i j : Nat) : Nat := (g.getD i []).getD j 0

/-- Well-formed 4×4 grid, as built by `Board.__init__` with `size=4`. -/
def gridWF (g : Grid) : Prop := g.length = 4 ∧ ∀ r ∈ g, r.length = 4

/-- Models `Board.reverse`: reverses each row in place (two-pointer swap = reversal). -/
def reverseGrid (g : Grid) : Grid := g.map List.reverse

/-- Models `Board.transpose`: `self.gridCell = [list(t) for t in zip(*self.gridCell)]`.
The Python `zip` truncates to the shortest row; the program only transposes
rectangular grids, where this is the matrix transpose written by columns. -/
def transposeGrid (g : Grid) : Grid :=
  match g with
  | [] => []
  | r0 :: _ => (List.range r0.length).map (fun j => g.map (fun r => r.getD j 0))

/-- One row of `Board.compressGrid`: the non-zero values are copied in order to
positions `0, 1, …` of a fresh zero row, i.e. the row becomes its non-zero
values followed by zero padding. -/
def compressRow (r : List Nat) : List Nat :=
  (r.filter fun v => decide (v ≠ 0)) ++
    List.replicate (r.length - (r.filter fun v => decide (v ≠ 0)).length) 0

/-- The `self.compress` flag restricted to one row of `Board.compressGrid`:
set when some non-zero cell at index `j` lands at `cnt ≠ j`.  In the loop,
`cnt` at index `j` equals the number of non-zero entries among the first `j`
cells, which is what the definition states. -/
def compressRowMoved (r : List Nat) : Bool :=
  (List.range r.length).any (fun j =>
    decide ((r.getD j 0) ≠ 0) &&
      decide (((r.take j).filter (fun v => decide (v ≠ 0))).length ≠ j))

/-- Models `Board.compressGrid`: compresses every row; the returned flag is
`self.compress`, set when any row moved a cell. -/
def compressGrid (g : Grid) : Grid × Bool :=
  (g.map compressRow, g.any compressRowMoved)

/-- One row of `Board.mergeGrid`.  The loop walks `j = 0, …, size-2` over the
mutating row; when `row[j] == row[j+1] != 0` it doubles `row[j]`, zeroes
`row[j+1]` and adds the doubled value to the score.  `a` is the current cell
`row[j]` (which a merge at `j-1` has set to 0), the list argument is the
suffix from `j+1` on.  Returns (new row, score gained, `self.merge` flag). -/
def mergeRowAux : Nat → List Nat → List Nat × Nat × Bool
  | a, [] => ([a], 0, false)
  | a, b :: rest =>
    if a = b ∧ a ≠ 0 then
      let p := mergeRowAux 0 rest
      (a * 2 :: p.1, a * 2 + p.2.1, true)
    else
      let p := mergeRowAux b rest
      (a :: p.1, p.2.1, p.2.2)

/-- One row of `Board.mergeGrid` (entry point of `mergeRowAux`). -/
def mergeRow : List Nat → List Nat × Nat × Bool
  | [] => ([], 0, false)
  | a :: rest => mergeRowAux a rest

/-- Models `Board.mergeGrid`: merges every row; returns the new grid, the total score
gained (the Python code adds it to `self.score` in place), and the
`self.merge` flag (set when any row merged). -/
def mergeGrid (g : Grid) : Grid × Nat × Bool :=
  (g.map (fun r => (mergeRow r).1),
   (g.map (fun r => (mergeRow r).2.1)).sum,
   g.any (fun r => (mergeRow r).2.2))

/-- The empty-cell list built by `Board.random_cell`, in row-major order. -/
def emptyCells (g : Grid) : List (Nat × Nat) :=
  (List.range g.length).flatMap (fun i =>
    (List.range (g.getD i []).length).filterMap (fun j =>
      if (g.getD i []).getD j 0 = 0 then some (i, j) else none))

/-- Models `self.gridCell[i][j] = v`. -/
def setCell (g : Grid) (i j v : Nat) : Grid :=
  g.set i ((g.getD i []).set j v)

/-- Models `Board.random_cell`: returns `False` (here `none`) when no cell is empty,
otherwise picks an empty cell (`random.choice` replaced by the oracle index
`k % cells.length`) and writes 4 with probability 10% (`four = true`) else 2. -/
def random_cell (g : Grid) (k : Nat) (four : Bool) : Option Grid :=
  let cells := emptyCells g
  if cells = [] then none
  else
    let c := cells.getD (k % cells.length) (0, 0)
    some (setCell g c.1 c.2 (if four then 4 else 2))

/-- Horizontal scan of `Board.can_merge`, one row:
`gridCell[i][j] == gridCell[i][j+1]` for some `j` (note: the code does NOT
require the cells to be non-zero). -/
def rowAdjEq : List Nat → Bool
  | a :: b :: rest => a == b || rowAdjEq (b :: rest)
  | _ => false

/-- Pointwise equality test of two rows, used for the vertical scan. -/
def zipAdjEq : List Nat → List Nat → Bool
  | a :: r1, b :: r2 => a == b || zipAdjEq r1 r2
  | _, _ => false

/-- Vertical scan of `Board.can_merge`:
`gridCell[i+1][j] == gridCell[i][j]` for some `i, j`. -/
def colAdjEq : Grid → Bool
  | r1 :: r2 :: rest => zipAdjEq r1 r2 || colAdjEq (r2 :: rest)
  | _ => false

/-- Models `Board.can_merge`: horizontal scan first, then vertical scan. -/
def can_merge (g : Grid) : Bool := g.any rowAdjEq || colAdjEq g

/-- The mutable state of `Board` (`gridCell`, `score`) and `Game` (`end`,
`won`, `move_count`, `prev_grid`, `prev_score`, `best_score`, `target`).
`end` is a Lean keyword, so the field is named `game_end`. -/
structure GameState where
  gridCell : Grid
  score : Nat
  game_end : Bool
  won : Bool
  move_count : Nat
  prev_grid : Option Grid
  prev_score : Nat
  best_score : Nat
  target : Nat
deriving Repr, DecidableEq

/-- State right after `Board.__init__` and `Game.__init__(board, target=2048)`:
all-zero 4×4 grid, zero score and counters, `Playing` (both flags false), no
undo snapshot.  `best_score` is the file-load fallback 0. -/
def initState : GameState :=
  { gridCell := List.replicate 4 (List.replicate 4 0)
    score := 0, game_end := false, won := false, move_count := 0
    prev_grid := none, prev_score := 0, best_score := 0, target := 2048 }

/-- A `self.board.random_cell()` call whose boolean result is discarded, as in
`Game.start`, `Game.reset` and the `move_*` methods. -/
def spawn (g : Grid) (k : Nat) (four : Bool) : Grid :=
  match random_cell g k four with
  | some g2 => g2
  | none => g

/-- Models `Game.start`: spawns two random cells (UI painting dropped). -/
def start (s : GameState) (k1 : Nat) (f1 : Bool) (k2 : Nat) (f2 : Bool) :
    GameState :=
  { s with gridCell := spawn (spawn s.gridCell k1 f1) k2 f2 }

/-- Models `Game.reset`: zero grid, zero score and move counter, flags cleared, undo
snapshot cleared, then two random cells spawned. -/
def reset (s : GameState) (k1 : Nat) (f1 : Bool) (k2 : Nat) (f2 : Bool) :
    GameState :=
  { s with
    gridCell := spawn (spawn (List.replicate 4 (List.replicate 4 0)) k1 f1) k2 f2
    score := 0, move_count := 0, game_end := false, won := false
    prev_grid := none, prev_score := 0 }

/-- Models `Game.set_target`. -/
def set_target (s : GameState) (t : Nat) : GameState := { s with target := t }

/-- Models `Game.can_move`: any empty cell, or `can_merge`. -/
def can_move (s : GameState) : Bool :=
  s.gridCell.any (fun r => r.any (fun v => decide (v = 0))) || can_merge s.gridCell

/-- Models `Game.save_undo`: deep-copies the grid and score into the one-slot
snapshot (copying is identity in the pure model). -/
def save_undo (s : GameState) : GameState :=
  { s with prev_grid := some s.gridCell, prev_score := s.score }

/-- Models `Game.undo`: when a snapshot exists, restore grid and score from it and
clear it (`prev_grid = None`, `prev_score = 0`); otherwise do nothing. -/
def undo (s : GameState) : GameState :=
  match s.prev_grid with
  | some pg =>
    { s with gridCell := pg, score := s.prev_score
             prev_grid := none, prev_score := 0 }
  | none => s

/-- The four move directions. -/
inductive Direction where
  | left | right | up | down
deriving Repr, DecidableEq

/-- The shared core of `Game.move_left/right/up/down` between `save_undo` and
the `if moved` block: the left-move pipeline `compressGrid; mergeGrid;
moved = compress or merge; compressGrid`, wrapped in the per-direction pre/post
transforms (`reverse` for right, `transpose` for up, `transpose; reverse` for
down).  Returns (transformed grid, score gained, `moved`).  Note `moved` is
read from the flags of the FIRST `compressGrid` and of `mergeGrid`, before the
second `compressGrid` overwrites `self.compress`. -/
def leftPipe (g : Grid) : Grid × Nat × Bool :=
  let p1 := compressGrid g
  let m := mergeGrid p1.1
  let moved := p1.2 || m.2.2
  let p2 := compressGrid m.1
  (p2.1, m.2.1, moved)

/-- Direction wrappers around `leftPipe`, exactly as each `move_*` method
wraps the shared pipeline. -/
def transformed (d : Direction) (g : Grid) : Grid × Nat × Bool :=
  match d with
  | .left => leftPipe g
  | .right =>
    let p := leftPipe (reverseGrid g)
    (reverseGrid p.1, p.2)
  | .up =>
    let p := leftPipe (transposeGrid g)
    (transposeGrid p.1, p.2)
  | .down =>
    let p := leftPipe (reverseGrid (transposeGrid g))
    (transposeGrid (reverseGrid p.1), p.2)

/-- Models `Game.move_left` (and `move_right/up/down` via `transformed`): rejected
when `end or won`; otherwise snapshot, transform, and when the grid changed,
increment the move counter and spawn one random cell.  The score gained by
merging is added to `self.board.score` (done inside `mergeGrid` in Python).
Returns the new state and `moved`. -/
def moveStep (d : Direction) (s : GameState) (k : Nat) (four : Bool) :
    GameState × Bool :=
  if s.game_end || s.won then (s, false)
  else
    let s1 := save_undo s
    let t := transformed d s1.gridCell
    if t.2.2 then
      ({ s1 with gridCell := spawn t.1 k four
                 score := s1.score + t.2.1
                 move_count := s1.move_count + 1 }, true)
    else
      ({ s1 with gridCell := t.1, score := s1.score + t.2.1 }, false)

/-- Models `Game.after_move_updates`: update best score; then, scanning the grid, if
any cell equals the target set `won` and return (the lose check is skipped);
otherwise if `can_move` fails set `end`.  Message boxes dropped. -/
def after_move_updates (s : GameState) : GameState :=
  let s1 := if s.best_score < s.score then { s with best_score := s.score } else s
  if s1.gridCell.any (fun r => r.any (fun v => decide (v = s1.target))) then
    { s1 with won := true }
  else if can_move s1 then s1
  else { s1 with game_end := true }

/-- A full move request as dispatched by the application
(`Enhanced2048App.move_left` etc.): `game.move_<d>()`, then
`game.after_move_updates()` only when the move was accepted. -/
def moveDir (d : Direction) (s : GameState) (k : Nat) (four : Bool) :
    GameState × Bool :=
  let r := moveStep d s k four
  if r.2 then (after_move_updates r.1, true) else r

/-! Section: Basic frame lemmas -/

theorem undo_of_prev_some {s : GameState} {pg : Grid} (h : s.prev_grid = some pg) :
    undo s = { s with gridCell := pg, score := s.prev_score
                      prev_grid := none, prev_score := 0 } := by
  unfold undo; rw [h]

theorem undo_of_prev_none {s : GameState} (h : s.prev_grid = none) :
    undo s = s := by
  unfold undo; rw [h]

/-- Models `after_move_updates` touches only `best_score`, `won` and `game_end`. -/
theorem after_move_updates_frame (s : GameState) :
    (after_move_updates s).gridCell = s.gridCell ∧
    (after_move_updates s).score = s.score ∧
    (after_move_updates s).move_count = s.move_count ∧
    (after_move_updates s).prev_grid = s.prev_grid ∧
    (after_move_updates s).prev_score = s.prev_score ∧
    (after_move_updates s).target = s.target := by
  simp only [after_move_updates]
  split_ifs <;> simp_all

/-- In the `Playing` state, `moveStep` records the pre-move grid and score in
the undo slot, leaves the flags and target alone, and only adds to the
score. -/
theorem moveStep_playing (s : GameState) (d : Direction) (k : Nat) (four : Bool)
    (he : s.game_end = false) (hw : s.won = false) :
    (moveStep d s k four).1.game_end = false ∧
    (moveStep d s k four).1.won = false ∧
    (moveStep d s k four).1.prev_grid = some s.gridCell ∧
    (moveStep d s k four).1.prev_score = s.score ∧
    (moveStep d s k four).1.target = s.target ∧
    (moveStep d s k four).1.best_score = s.best_score ∧
    s.score ≤ (moveStep d s k four).1.score := by
  simp only [moveStep, save_undo, he, hw, Bool.or_self, Bool.false_eq_true,
    if_false]
  split_ifs <;> simp [Nat.le_add_right]

/-! Section: Compression: idempotence (C7) -/

theorem compressRow_length (r : List Nat) : (compressRow r).length = r.length := by
  have h := List.length_filter_le (fun v => decide (v ≠ 0)) r
  simp only [compressRow, List.length_append, List.length_replicate]
  omega

theorem compressRow_filter (r : List Nat) :
    (compressRow r).filter (fun v => decide (v ≠ 0)) =
      r.filter (fun v => decide (v ≠ 0)) := by
  unfold compressRow
  rw [List.filter_append]
  have h1 : (r.filter (fun v => decide (v ≠ 0))).filter (fun v => decide (v ≠ 0)) =
      r.filter (fun v => decide (v ≠ 0)) :=
    List.filter_eq_self.mpr (fun a ha => (List.mem_filter.mp ha).2)
  have h2 : (List.replicate (r.length - (r.filter (fun v => decide (v ≠ 0))).length)
      0).filter (fun v => decide (v ≠ 0)) = [] := by
    rw [List.filter_eq_nil_iff]
    intro a ha
    rw [List.eq_of_mem_replicate ha]
    simp
  rw [h1, h2, List.append_nil]

theorem compressRow_idem (r : List Nat) :
    compressRow (compressRow r) = compressRow r := by
  show ((compressRow r).filter fun v => decide (v ≠ 0)) ++
      List.replicate ((compressRow r).length -
        ((compressRow r).filter fun v => decide (v ≠ 0)).length) 0 =
    compressRow r
  rw [compressRow_filter, compressRow_length]
  rfl

theorem compressRowMoved_compressRow (r : List Nat) :
    compressRowMoved (compressRow r) = false := by
  rw [compressRowMoved, List.any_eq_false]
  intro j hj
  rw [List.mem_range, compressRow_length] at hj
  by_cases hcase : j < (r.filter (fun v => decide (v ≠ 0))).length
  · have htake : (compressRow r).take j =
        (r.filter (fun v => decide (v ≠ 0))).take j := by
      unfold compressRow
      rw [List.take_append_eq_append_take,
        Nat.sub_eq_zero_of_le (le_of_lt hcase), List.take_zero, List.append_nil]
    have hfil : ((compressRow r).take j).filter (fun v => decide (v ≠ 0)) =
        (r.filter (fun v => decide (v ≠ 0))).take j := by
      rw [htake]
      exact List.filter_eq_self.mpr
        (fun a ha => (List.mem_filter.mp (List.mem_of_mem_take ha)).2)
    have hlen : (((compressRow r).take j).filter (fun v => decide (v ≠ 0))).length = j := by
      rw [hfil, List.length_take]
      omega
    rw [hlen]
    simp
  · have hget : (compressRow r).getD j 0 = 0 := by
      unfold compressRow
      rw [List.getD_eq_getElem?_getD, List.getElem?_append_right (Nat.le_of_not_lt hcase),
        List.getElem?_replicate]
      split <;> simp
    rw [hget]
    simp

/-- C7 — `compressGrid` is idempotent, and its second application reports
that no cell changed position (`compress` flag `False`). -/
theorem compressGrid_idempotent (g : Grid) :
    compressGrid (compressGrid g).1 = ((compressGrid g).1, false) := by
  unfold compressGrid
  refine Prod.ext ?_ ?_
  · simp [List.map_map, Function.comp_def, compressRow_idem]
  · simp only [List.any_map, List.any_eq_false, Function.comp_def]
    intro r _
    simp [compressRowMoved_compressRow]

/-! Section: Merging is a single pass (C1) -/

/-- Modelled from the spec: a single left-to-right merge pass in which
a merge doubles the left cell, zeroes the right cell, adds the doubled value
to the score, and the pass then moves PAST the merged pair, so a cell produced
by a merge is never considered again.  `a` is the current cell, the list is
the remaining suffix.  This is the reference the code is compared against. -/
def mergeOnePassAux : Nat → List Nat → List Nat × Nat × Bool
  | a, [] => ([a], 0, false)
  | a, b :: rest =>
    if a = b ∧ a ≠ 0 then
      match rest with
      | [] => ([a * 2, 0], a * 2, true)
      | c :: rest2 =>
        let p := mergeOnePassAux c rest2
        (a * 2 :: 0 :: p.1, a * 2 + p.2.1, true)
    else
      let p := mergeOnePassAux b rest
      (a :: p.1, p.2.1, p.2.2)

/-- Entry point of `mergeOnePassAux` (spec-side single-pass merge). -/
def mergeRowOnePass : List Nat → List Nat × Nat × Bool
  | [] => ([], 0, false)
  | a :: rest => mergeOnePassAux a rest

/-- After a merge the code continues from the zeroed cell, which can never
start another merge: processing `0 :: l` just emits the 0. -/
theorem mergeRowAux_zero (l : List Nat) :
    mergeRowAux 0 l = (0 :: (mergeRow l).1, (mergeRow l).2) := by
  cases l with
  | nil => rfl
  | cons c rest => simp [mergeRowAux, mergeRow]

theorem mergeRowAux_cons_pos {a b : Nat} (rest : List Nat) (h : a = b ∧ a ≠ 0) :
    mergeRowAux a (b :: rest) =
      (a * 2 :: (mergeRowAux 0 rest).1, a * 2 + (mergeRowAux 0 rest).2.1, true) := by
  simp only [mergeRowAux, if_pos h]

theorem mergeRowAux_cons_neg {a b : Nat} (rest : List Nat) (h : ¬(a = b ∧ a ≠ 0)) :
    mergeRowAux a (b :: rest) =
      (a :: (mergeRowAux b rest).1, (mergeRowAux b rest).2.1,
        (mergeRowAux b rest).2.2) := by
  simp only [mergeRowAux, if_neg h]

theorem mergeOnePassAux_cons2_pos {a b : Nat} (c : Nat) (rest2 : List Nat)
    (h : a = b ∧ a ≠ 0) :
    mergeOnePassAux a (b :: c :: rest2) =
      (a * 2 :: 0 :: (mergeOnePassAux c rest2).1,
        a * 2 + (mergeOnePassAux c rest2).2.1, true) := by
  rw [mergeOnePassAux.eq_def]
  simp only [if_pos h]

theorem mergeOnePassAux_cons_neg {a b : Nat} (rest : List Nat)
    (h : ¬(a = b ∧ a ≠ 0)) :
    mergeOnePassAux a (b :: rest) =
      (a :: (mergeOnePassAux b rest).1, (mergeOnePassAux b rest).2.1,
        (mergeOnePassAux b rest).2.2) := by
  rw [mergeOnePassAux.eq_def]
  simp only [if_neg h]

theorem mergeRowAux_eq_onePass (n : Nat) :
    ∀ l : List Nat, l.length ≤ n → ∀ a, mergeRowAux a l = mergeOnePassAux a l := by
  induction n with
  | zero =>
    intro l hl a
    rw [List.length_eq_zero.mp (Nat.le_zero.mp hl)]
    rfl
  | succ n ih =>
    intro l hl a
    match l with
    | [] => rfl
    | b :: rest =>
      by_cases hc : a = b ∧ a ≠ 0
      · cases rest with
        | nil => simp [mergeRowAux, mergeOnePassAux, hc]
        | cons c rest2 =>
          have hlen : rest2.length ≤ n := by
            simp at hl; omega
          have h1 := ih rest2 hlen c
          rw [mergeRowAux_cons_pos _ hc, mergeOnePassAux_cons2_pos _ _ hc,
            mergeRowAux_zero]
          simp only [mergeRow, h1]
      · have hlen : rest.length ≤ n := by
          simp at hl; omega
        have h1 := ih rest hlen b
        rw [mergeRowAux_cons_neg _ hc, mergeOnePassAux_cons_neg _ hc, h1]

theorem mergeRow_eq_onePass (r : List Nat) : mergeRow r = mergeRowOnePass r := by
  cases r with
  | nil => rfl
  | cons a rest => exact mergeRowAux_eq_onePass rest.length rest le_rfl a

/-- C1 — one invocation of `mergeGrid` merges each cell at most once: the
merge pass of the code coincides with the single left-to-right pass that, at each
merge, doubles the left cell, zeroes the right cell, adds the doubled value to
the score, and moves past the merged pair (so a merge result is never merged
again); in particular the row `[2,2,2,2]` becomes `[4,0,4,0]` with score gain
8, not `[8,0,0,0]`. -/
theorem mergeGrid_merges_each_cell_at_most_once :
    (∀ r : List Nat, mergeRow r = mergeRowOnePass r) ∧
    mergeGrid [[2,2,2,2]] = ([[4,0,4,0]], 8, true) ∧
    (mergeGrid [[2,2,2,2]]).1 ≠ [[8,0,0,0]] :=
  ⟨mergeRow_eq_onePass, by decide, by decide⟩

/-! Section: `can_merge` versus the adjacency condition (C2) -/

/-- Modelled from the spec: some two horizontally or vertically
adjacent cells hold equal values (no non-zero requirement — this is what the
code actually tests). -/
def AdjEq (g : Grid) : Prop :=
  (∃ i j, i < g.length ∧ j + 1 < (g.getD i []).length ∧
    cellAt g i j = cellAt g i (j + 1)) ∨
  (∃ i j, i + 1 < g.length ∧ j < (g.getD i []).length ∧
    j < (g.getD (i + 1) []).length ∧ cellAt g i j = cellAt g (i + 1) j)

/-- Modelled from the spec: some two horizontally or vertically
adjacent cells hold equal NON-ZERO values (the condition the spec states for
`canMerge()`). -/
def AdjEqNonzero (g : Grid) : Prop :=
  (∃ i j, i < g.length ∧ j + 1 < (g.getD i []).length ∧
    cellAt g i j ≠ 0 ∧ cellAt g i j = cellAt g i (j + 1)) ∨
  (∃ i j, i + 1 < g.length ∧ j < (g.getD i []).length ∧
    j < (g.getD (i + 1) []).length ∧
    cellAt g i j ≠ 0 ∧ cellAt g i j = cellAt g (i + 1) j)

theorem rowAdjEq_iff : ∀ r : List Nat,
    rowAdjEq r = true ↔ ∃ j, j + 1 < r.length ∧ r.getD j 0 = r.getD (j + 1) 0
  | [] => by simp [rowAdjEq]
  | [a] => by simp [rowAdjEq]
  | a :: b :: rest => by
    rw [show rowAdjEq (a :: b :: rest) = (a == b || rowAdjEq (b :: rest)) from rfl,
      Bool.or_eq_true, beq_iff_eq, rowAdjEq_iff (b :: rest)]
    constructor
    · rintro (h | ⟨j, hj, he⟩)
      · exact ⟨0, by simp, by simpa using h⟩
      · exact ⟨j + 1, by simpa using hj, by simpa using he⟩
    · rintro ⟨j, hj, he⟩
      cases j with
      | zero => exact Or.inl (by simpa using he)
      | succ j => exact Or.inr ⟨j, by simpa using hj, by simpa using he⟩

theorem zipAdjEq_iff : ∀ r1 r2 : List Nat,
    zipAdjEq r1 r2 = true ↔
      ∃ j, j < r1.length ∧ j < r2.length ∧ r1.getD j 0 = r2.getD j 0
  | [], r2 => by simp [zipAdjEq]
  | a :: r1, [] => by simp [zipAdjEq]
  | a :: r1, b :: r2 => by
    rw [show zipAdjEq (a :: r1) (b :: r2) = (a == b || zipAdjEq r1 r2) from rfl,
      Bool.or_eq_true, beq_iff_eq, zipAdjEq_iff r1 r2]
    constructor
    · rintro (h | ⟨j, h1, h2, he⟩)
      · exact ⟨0, by simp, by simp, by simpa using h⟩
      · exact ⟨j + 1, by simpa using h1, by simpa using h2, by simpa using he⟩
    · rintro ⟨j, h1, h2, he⟩
      cases j with
      | zero => exact Or.inl (by simpa using he)
      | succ j =>
        exact Or.inr ⟨j, by simpa using h1, by simpa using h2, by simpa using he⟩

theorem colAdjEq_iff : ∀ g : Grid,
    colAdjEq g = true ↔
      ∃ i j, i + 1 < g.length ∧ j < (g.getD i []).length ∧
        j < (g.getD (i + 1) []).length ∧ cellAt g i j = cellAt g (i + 1) j
  | [] => by simp [colAdjEq]
  | [r] => by simp [colAdjEq]
  | r1 :: r2 :: rest => by
    rw [show colAdjEq (r1 :: r2 :: rest) = (zipAdjEq r1 r2 || colAdjEq (r2 :: rest))
        from rfl,
      Bool.or_eq_true, zipAdjEq_iff r1 r2, colAdjEq_iff (r2 :: rest)]
    constructor
    · rintro (⟨j, h1, h2, he⟩ | ⟨i, j, hi, hj1, hj2, he⟩)
      · exact ⟨0, j, by simp, by simpa using h1, by simpa using h2,
          by simpa [cellAt] using he⟩
      · exact ⟨i + 1, j, by simpa using hi, by simpa using hj1,
          by simpa using hj2, by simpa [cellAt] using he⟩
    · rintro ⟨i, j, hi, hj1, hj2, he⟩
      cases i with
      | zero => exact Or.inl ⟨j, by simpa using hj1, by simpa using hj2,
          by simpa [cellAt] using he⟩
      | succ i => exact Or.inr ⟨i, j, by simpa using hi, by simpa using hj1,
          by simpa using hj2, by simpa [cellAt] using he⟩

theorem any_rowAdjEq_iff (g : Grid) :
    g.any rowAdjEq = true ↔ ∃ i, i < g.length ∧ rowAdjEq (g.getD i []) = true := by
  rw [List.any_eq_true]
  constructor
  · rintro ⟨r, hr, h⟩
    rcases List.mem_iff_getElem.mp hr with ⟨i, hi, rfl⟩
    exact ⟨i, hi, by rwa [List.getD_eq_getElem _ _ hi]⟩
  · rintro ⟨i, hi, h⟩
    refine ⟨g.getD i [], ?_, h⟩
    rw [List.getD_eq_getElem _ _ hi]
    exact List.getElem_mem hi

theorem can_merge_iff_adjEq (g : Grid) : can_merge g = true ↔ AdjEq g := by
  rw [can_merge, Bool.or_eq_true, any_rowAdjEq_iff, colAdjEq_iff, AdjEq]
  constructor
  · rintro (⟨i, hi, h⟩ | h)
    · rcases (rowAdjEq_iff _).mp h with ⟨j, hj, he⟩
      exact Or.inl ⟨i, j, hi, hj, he⟩
    · exact Or.inr h
  · rintro (⟨i, j, hi, hj, he⟩ | h)
    · exact Or.inl ⟨i, hi, (rowAdjEq_iff _).mpr ⟨j, hj, he⟩⟩
    · exact Or.inr h

/-- On a grid whose cells are all non-zero, the two adjacency conditions
coincide. -/
theorem adjEq_iff_adjEqNonzero (g : Grid) (h : ∀ r ∈ g, ∀ v ∈ r, v ≠ 0) :
    AdjEq g ↔ AdjEqNonzero g := by
  have hcell : ∀ i j, i < g.length → j < (g.getD i []).length → cellAt g i j ≠ 0 := by
    intro i j hi hj
    have hrow : g.getD i [] ∈ g := by
      rw [List.getD_eq_getElem _ _ hi]
      exact List.getElem_mem hi
    have : (g.getD i []).getD j 0 ∈ g.getD i [] := by
      rw [List.getD_eq_getElem _ _ hj]
      exact List.getElem_mem hj
    exact h _ hrow _ this
  constructor
  · rintro (⟨i, j, hi, hj, he⟩ | ⟨i, j, hi, hj1, hj2, he⟩)
    · exact Or.inl ⟨i, j, hi, hj, hcell i j hi (Nat.lt_of_succ_lt hj), he⟩
    · exact Or.inr ⟨i, j, hi, hj1, hj2, hcell i j (Nat.lt_of_succ_lt hi) hj1, he⟩
  · rintro (⟨i, j, hi, hj, _, he⟩ | ⟨i, j, hi, hj1, hj2, _, he⟩)
    · exact Or.inl ⟨i, j, hi, hj, he⟩
    · exact Or.inr ⟨i, j, hi, hj1, hj2, he⟩

theorem cellAt_replicate_zero (m n i j : Nat) :
    cellAt (List.replicate m (List.replicate n 0)) i j = 0 := by
  unfold cellAt
  have h1 : (List.replicate m (List.replicate n (0:Nat))).getD i [] =
      List.replicate n 0 ∨
      (List.replicate m (List.replicate n (0:Nat))).getD i [] = [] := by
    rw [List.getD_eq_getElem?_getD, List.getElem?_replicate]
    split <;> simp
  rcases h1 with h | h <;> rw [h]
  · rw [List.getD_eq_getElem?_getD, List.getElem?_replicate]
    split <;> simp
  · simp

/-- C2 counterexample — on the all-zero grid `can_merge` returns `True`
although no two adjacent cells hold equal non-zero values: the code omits the
non-zero test the spec states. -/
theorem can_merge_counterexample :
    can_merge (List.replicate 4 (List.replicate 4 0)) = true ∧
    ¬ AdjEqNonzero (List.replicate 4 (List.replicate 4 0)) := by
  refine ⟨by decide, ?_⟩
  rintro (⟨i, j, hi, hj, hnz, -⟩ | ⟨i, j, hi, hj1, hj2, hnz, -⟩) <;>
    exact hnz (cellAt_replicate_zero 4 4 i j)

/-- C2 (amended) — `can_merge` returns `True` iff some two horizontally or
vertically adjacent cells hold EQUAL values (zero included); on grids with no
empty cell this coincides with the condition of the spec (equal non-zero values).
This is how the game uses it: `can_move` consults it only when no cell is 0. -/
theorem can_merge_iff_adj (g : Grid) :
    (can_merge g = true ↔ AdjEq g) ∧
    ((∀ r ∈ g, ∀ v ∈ r, v ≠ 0) → (can_merge g = true ↔ AdjEqNonzero g)) :=
  ⟨can_merge_iff_adjEq g,
   fun h => (can_merge_iff_adjEq g).trans (adjEq_iff_adjEqNonzero g h)⟩

/-- Witness for the hypothesis-bearing part of the amended C2 theorem, at a
concrete full grid with a merge available. -/
theorem can_merge_iff_adj_witness :
    (∀ r ∈ ([[2,2,4,8],[4,8,2,4],[2,4,8,2],[4,2,4,8]] : Grid), ∀ v ∈ r, v ≠ 0) ∧
    (can_merge [[2,2,4,8],[4,8,2,4],[2,4,8,2],[4,2,4,8]] = true ↔
      AdjEqNonzero [[2,2,4,8],[4,8,2,4],[2,4,8,2],[4,2,4,8]]) :=
  ⟨by decide,
   (can_merge_iff_adj [[2,2,4,8],[4,8,2,4],[2,4,8,2],[4,2,4,8]]).2 (by decide)⟩

/-! Section: Lose detection (C3) -/

/-- A full grid with no equal adjacent pair: no move can change it. -/
def stuckGrid : Grid := [[2,4,2,4],[4,2,4,2],[2,4,2,4],[4,2,4,2]]

/-- A playing state already stuck on `stuckGrid`. -/
def stuckState : GameState := { initState with gridCell := stuckGrid }

/-- C3 counterexample — in a `Playing` state whose grid is full with no equal
adjacent cells, a move attempt in EVERY direction is rejected and does NOT
transition the state to Lost: `after_move_updates` (the only place that sets
`end`) runs only after an accepted move. -/
theorem next_attempt_sets_lost_counterexample :
    (stuckState.game_end = false ∧ stuckState.won = false ∧
      stuckState.gridCell.all (fun r => r.all (fun v => decide (v ≠ 0))) = true ∧
      can_merge stuckState.gridCell = false) ∧
    (moveDir .left stuckState 0 false).1.game_end = false ∧
    (moveDir .right stuckState 0 false).1.game_end = false ∧
    (moveDir .up stuckState 0 false).1.game_end = false ∧
    (moveDir .down stuckState 0 false).1.game_end = false ∧
    (moveDir .left stuckState 0 false).2 = false ∧
    (moveDir .right stuckState 0 false).2 = false ∧
    (moveDir .up stuckState 0 false).2 = false ∧
    (moveDir .down stuckState 0 false).2 = false := by decide

/-- When the grid holds no empty cell, no mergeable pair and no target tile,
`after_move_updates` sets the `end` flag. -/
theorem after_move_updates_sets_end (u : GameState)
    (ht : u.gridCell.any (fun r => r.any (fun v => decide (v = u.target))) = false)
    (hf : u.gridCell.any (fun r => r.any (fun v => decide (v = 0))) = false)
    (hm : can_merge u.gridCell = false) :
    (after_move_updates u).game_end = true := by
  have hcm : ∀ t : GameState, t.gridCell = u.gridCell → can_move t = false := by
    intro t htg
    simp only [can_move, htg, hf, hm, Bool.or_self]
  have hscan : ∀ t : GameState, t.gridCell = u.gridCell → t.target = u.target →
      t.gridCell.any (fun r => r.any (fun v => decide (v = t.target))) = false := by
    intro t htg htt
    rw [htg, htt]
    exact ht
  simp only [after_move_updates]
  by_cases h1 : u.best_score < u.score
  · simp only [if_pos h1]
    rw [hscan { u with best_score := u.score } rfl rfl,
      hcm { u with best_score := u.score } rfl]
    simp
  · simp only [if_neg h1]
    rw [hscan u rfl rfl, hcm u rfl]
    simp

/-- C3 (amended) — the Lost transition happens at the end of the ACCEPTED move
whose result is a full grid with no mergeable pair (and no target tile): when
a move is accepted and the post-move grid has no empty cell, `can_merge` is
false and no cell equals the target, the `end` flag of the state is set.  A move
attempted on an already-stuck grid is rejected and leaves the flags alone
(see the counterexample). -/
theorem accepted_move_into_dead_position_sets_lost
    (s : GameState) (d : Direction) (k : Nat) (four : Bool)
    (hmoved : (moveDir d s k four).2 = true)
    (hfull : (moveDir d s k four).1.gridCell.any
      (fun r => r.any (fun v => decide (v = 0))) = false)
    (hnomerge : can_merge (moveDir d s k four).1.gridCell = false)
    (hnotarget : (moveDir d s k four).1.gridCell.any
      (fun r => r.any (fun v => decide (v = (moveDir d s k four).1.target)))
        = false) :
    (moveDir d s k four).1.game_end = true := by
  have hms : (moveStep d s k four).2 = true := by
    by_contra hc
    rw [Bool.not_eq_true] at hc
    have hmd : (moveDir d s k four).2 = false := by
      simp only [moveDir]
      rw [hc]
      simp only [Bool.false_eq_true, if_false]
      exact hc
    rw [hmd] at hmoved
    exact Bool.false_ne_true hmoved
  have hres : (moveDir d s k four).1 = after_move_updates (moveStep d s k four).1 := by
    simp only [moveDir]
    rw [hms]
    simp
  rw [hres] at hfull hnomerge hnotarget ⊢
  rcases after_move_updates_frame (moveStep d s k four).1 with ⟨hg, -, -, -, -, htg⟩
  rw [hg] at hfull hnomerge
  rw [hg, htg] at hnotarget
  exact after_move_updates_sets_end _ hnotarget hfull hnomerge

/-- A playing state one accepted left-move away from the dead `stuckGrid`. -/
def almostStuckState : GameState :=
  { initState with gridCell := [[2,4,2,4],[4,2,4,2],[2,4,2,4],[0,4,2,4]] }

/-- Witness for the amended C3 theorem: the concrete accepted move that fills
the grid into a dead position sets the Lost flag. -/
theorem accepted_move_into_dead_position_sets_lost_witness :
    ((moveDir .left almostStuckState 0 false).2 = true ∧
      (moveDir .left almostStuckState 0 false).1.gridCell.any
        (fun r => r.any (fun v => decide (v = 0))) = false ∧
      can_merge (moveDir .left almostStuckState 0 false).1.gridCell = false ∧
      (moveDir .left almostStuckState 0 false).1.gridCell.any
        (fun r => r.any (fun v =>
          decide (v = (moveDir .left almostStuckState 0 false).1.target)))
        = false) ∧
    (moveDir .left almostStuckState 0 false).1.game_end = true :=
  ⟨⟨by decide, by decide, by decide, by decide⟩,
   accepted_move_into_dead_position_sets_lost almostStuckState .left 0 false
     (by decide) (by decide) (by decide) (by decide)⟩

/-! Section: Spawn after an accepted move (C6) -/

theorem zero_mem_compressRow {r : List Nat} (h : 0 ∈ r) : 0 ∈ compressRow r := by
  have hlt : (r.filter fun v => decide (v ≠ 0)).length < r.length :=
    List.length_filter_lt_length_iff_exists.mpr ⟨0, h, by simp⟩
  unfold compressRow
  refine List.mem_append_right _ ?_
  rw [List.mem_replicate]
  exact ⟨by omega, rfl⟩

/-- The `compress` flag can only be set when the row has an empty cell (the
skipped zero in front of the moved value). -/
theorem zero_mem_of_compressRowMoved {r : List Nat}
    (h : compressRowMoved r = true) : 0 ∈ r := by
  rw [compressRowMoved, List.any_eq_true] at h
  rcases h with ⟨j, hj, hcond⟩
  rw [List.mem_range] at hj
  rw [Bool.and_eq_true, decide_eq_true_iff, decide_eq_true_iff] at hcond
  rcases hcond with ⟨-, hlen⟩
  by_contra h0
  apply hlen
  have hall : ∀ v ∈ r.take j, (fun v => decide (v ≠ 0)) v = true := by
    intro v hv
    simp only [decide_eq_true_iff]
    intro he
    exact h0 (he ▸ List.mem_of_mem_take hv)
  rw [List.filter_eq_self.mpr hall, List.length_take]
  omega

theorem zero_mem_mergeRowAux {a : Nat} {l : List Nat} (h : a = 0 ∨ 0 ∈ l) :
    0 ∈ (mergeRowAux a l).1 := by
  induction l generalizing a with
  | nil =>
    rcases h with h | h
    · subst h; simp [mergeRowAux]
    · exact absurd h (List.not_mem_nil 0)
  | cons b rest ih =>
    by_cases hc : a = b ∧ a ≠ 0
    · rw [mergeRowAux_cons_pos _ hc]
      exact List.mem_cons_of_mem _ (ih (Or.inl rfl))
    · rw [mergeRowAux_cons_neg _ hc]
      rcases h with h | h
      · subst h; exact List.mem_cons_self _ _
      · rcases List.mem_cons.mp h with h | h
        · exact List.mem_cons_of_mem _ (ih (Or.inl h.symm))
        · exact List.mem_cons_of_mem _ (ih (Or.inr h))

/-- A merge zeroes the right cell, so a row whose merge flag is set contains
an empty cell. -/
theorem zero_mem_mergeRowAux_of_flag {a : Nat} {l : List Nat}
    (h : (mergeRowAux a l).2.2 = true) : 0 ∈ (mergeRowAux a l).1 := by
  induction l generalizing a with
  | nil => simp [mergeRowAux] at h
  | cons b rest ih =>
    by_cases hc : a = b ∧ a ≠ 0
    · rw [mergeRowAux_cons_pos _ hc]
      exact List.mem_cons_of_mem _ (zero_mem_mergeRowAux (Or.inl rfl))
    · rw [mergeRowAux_cons_neg _ hc] at h ⊢
      exact List.mem_cons_of_mem _ (ih h)

theorem zero_mem_mergeRow {r : List Nat} (h : 0 ∈ r) : 0 ∈ (mergeRow r).1 := by
  cases r with
  | nil => exact absurd h (List.not_mem_nil 0)
  | cons a rest =>
    rcases List.mem_cons.mp h with h | h
    · exact zero_mem_mergeRowAux (Or.inl h.symm)
    · exact zero_mem_mergeRowAux (Or.inr h)

theorem zero_mem_mergeRow_of_flag {r : List Nat} (h : (mergeRow r).2.2 = true) :
    0 ∈ (mergeRow r).1 := by
  cases r with
  | nil => simp [mergeRow] at h
  | cons a rest => exact zero_mem_mergeRowAux_of_flag h

/-- When the left pipeline reports `moved`, its output grid has an empty
cell. -/
theorem leftPipe_zero {g : Grid} (h : (leftPipe g).2.2 = true) :
    ∃ r ∈ (leftPipe g).1, 0 ∈ r := by
  have h1 : (leftPipe g).1 =
      ((g.map compressRow).map (fun r => (mergeRow r).1)).map compressRow := rfl
  have h2 : (leftPipe g).2.2 =
      (g.any compressRowMoved ||
        (g.map compressRow).any (fun r => (mergeRow r).2.2)) := rfl
  rw [h2, Bool.or_eq_true] at h
  rw [h1]
  rcases h with h | h
  · rw [List.any_eq_true] at h
    rcases h with ⟨r, hr, hflag⟩
    refine ⟨compressRow ((mergeRow (compressRow r)).1), ?_, ?_⟩
    · exact List.mem_map_of_mem _
        (List.mem_map_of_mem _ (List.mem_map_of_mem _ hr))
    · exact zero_mem_compressRow (zero_mem_mergeRow
        (zero_mem_compressRow (zero_mem_of_compressRowMoved hflag)))
  · rw [List.any_eq_true] at h
    rcases h with ⟨r1, hr1, hflag⟩
    refine ⟨compressRow ((mergeRow r1).1), ?_, ?_⟩
    · exact List.mem_map_of_mem _ (List.mem_map_of_mem _ hr1)
    · exact zero_mem_compressRow (zero_mem_mergeRow_of_flag hflag)

theorem mergeRowAux_length (l : List Nat) :
    ∀ a, (mergeRowAux a l).1.length = l.length + 1 := by
  induction l with
  | nil => intro a; rfl
  | cons b rest ih =>
    intro a
    by_cases hc : a = b ∧ a ≠ 0
    · rw [mergeRowAux_cons_pos _ hc]
      simp [ih 0]
    · rw [mergeRowAux_cons_neg _ hc]
      simp [ih b]

theorem mergeRow_length (r : List Nat) : (mergeRow r).1.length = r.length := by
  cases r with
  | nil => rfl
  | cons a rest => simp [mergeRow, mergeRowAux_length rest a]

theorem leftPipe_rows {g : Grid} {m : Nat} (h : ∀ r ∈ g, r.length = m) :
    ∀ r ∈ (leftPipe g).1, r.length = m := by
  intro r hr
  rw [show (leftPipe g).1 =
      ((g.map compressRow).map (fun t => (mergeRow t).1)).map compressRow
    from rfl] at hr
  rcases List.mem_map.mp hr with ⟨t2, ht2, rfl⟩
  rcases List.mem_map.mp ht2 with ⟨t1, ht1, rfl⟩
  rcases List.mem_map.mp ht1 with ⟨t0, ht0, rfl⟩
  rw [compressRow_length, mergeRow_length, compressRow_length]
  exact h t0 ht0

theorem reverseGrid_rows {g : Grid} {m : Nat} (h : ∀ r ∈ g, r.length = m) :
    ∀ r ∈ reverseGrid g, r.length = m := by
  intro r hr
  rcases List.mem_map.mp hr with ⟨t, ht, rfl⟩
  rw [List.length_reverse]
  exact h t ht

theorem transposeGrid_rows (g : Grid) :
    ∀ r ∈ transposeGrid g, r.length = g.length := by
  intro r hr
  cases g with
  | nil => exact absurd hr (List.not_mem_nil _)
  | cons r0 rest =>
    rcases List.mem_map.mp hr with ⟨j, _, rfl⟩
    simp

theorem reverse_zero {g : Grid} (h : ∃ r ∈ g, 0 ∈ r) :
    ∃ r2 ∈ reverseGrid g, 0 ∈ r2 := by
  rcases h with ⟨r, hr, h0⟩
  exact ⟨r.reverse, List.mem_map_of_mem _ hr, List.mem_reverse.mpr h0⟩

theorem transpose_zero {g : Grid} {m : Nat} (hm : ∀ r ∈ g, r.length = m)
    (h : ∃ r ∈ g, 0 ∈ r) : ∃ r2 ∈ transposeGrid g, 0 ∈ r2 := by
  rcases h with ⟨r, hr, h0⟩
  cases g with
  | nil => exact absurd hr (List.not_mem_nil _)
  | cons r0 rest =>
    rcases List.mem_iff_getElem.mp h0 with ⟨j, hj, hj0⟩
    have hr0 : r0.length = m := hm r0 (List.mem_cons_self _ _)
    have hrl : r.length = m := hm r hr
    have hjm : j < r0.length := by omega
    refine ⟨(r0 :: rest).map (fun rr => rr.getD j 0), ?_, ?_⟩
    · rw [show transposeGrid (r0 :: rest) = (List.range r0.length).map
          (fun j2 => (r0 :: rest).map (fun rr => rr.getD j2 0)) from rfl]
      exact List.mem_map_of_mem _ (List.mem_range.mpr hjm)
    · have hmem : r.getD j 0 ∈ (r0 :: rest).map (fun rr => rr.getD j 0) :=
        List.mem_map_of_mem _ hr
      rwa [List.getD_eq_getElem _ _ hj, hj0] at hmem

/-- When any transform of the direction reports `moved`, the transformed grid has
an empty cell (merges zero a cell; compress moves imply a skipped zero). -/
theorem transformed_zero {g : Grid} {d : Direction}
    (h : (transformed d g).2.2 = true) :
    ∃ r ∈ (transformed d g).1, 0 ∈ r := by
  cases d with
  | left => exact leftPipe_zero h
  | right =>
    rw [show (transformed .right g).2.2 = (leftPipe (reverseGrid g)).2.2 from rfl]
      at h
    exact reverse_zero (leftPipe_zero h)
  | up =>
    rw [show (transformed .up g).2.2 = (leftPipe (transposeGrid g)).2.2 from rfl]
      at h
    exact transpose_zero (leftPipe_rows (transposeGrid_rows g))
      (leftPipe_zero h)
  | down =>
    rw [show (transformed .down g).2.2 =
        (leftPipe (reverseGrid (transposeGrid g))).2.2 from rfl] at h
    exact transpose_zero
      (reverseGrid_rows (leftPipe_rows (reverseGrid_rows (transposeGrid_rows g))))
      (reverse_zero (leftPipe_zero h))

theorem mem_emptyCells {g : Grid} {i j : Nat} :
    (i, j) ∈ emptyCells g ↔
      i < g.length ∧ j < (g.getD i []).length ∧ (g.getD i []).getD j 0 = 0 := by
  rw [emptyCells, List.mem_flatMap]
  constructor
  · rintro ⟨i2, hi2, hmem⟩
    rw [List.mem_filterMap] at hmem
    rcases hmem with ⟨j2, hj2, hopt⟩
    by_cases hz : (g.getD i2 []).getD j2 0 = 0
    · rw [if_pos hz] at hopt
      have hpair : i2 = i ∧ j2 = j := by
        have := Option.some.inj hopt
        exact ⟨congrArg Prod.fst this, congrArg Prod.snd this⟩
      obtain ⟨rfl, rfl⟩ := hpair
      exact ⟨List.mem_range.mp hi2, List.mem_range.mp hj2, hz⟩
    · rw [if_neg hz] at hopt
      cases hopt
  · rintro ⟨hi, hj, hz⟩
    exact ⟨i, List.mem_range.mpr hi,
      List.mem_filterMap.mpr ⟨j, List.mem_range.mpr hj, by rw [if_pos hz]⟩⟩

theorem emptyCells_ne_nil {g : Grid} (h : ∃ r ∈ g, 0 ∈ r) :
    emptyCells g ≠ [] := by
  rcases h with ⟨r, hr, h0⟩
  rcases List.mem_iff_getElem.mp hr with ⟨i, hi, hgi⟩
  rcases List.mem_iff_getElem.mp h0 with ⟨j, hj, hj0⟩
  have hmem : (i, j) ∈ emptyCells g := by
    rw [mem_emptyCells]
    refine ⟨hi, ?_, ?_⟩
    · rw [List.getD_eq_getElem _ _ hi, hgi]
      exact hj
    · rw [List.getD_eq_getElem _ _ hi, hgi, List.getD_eq_getElem _ _ hj, hj0]
  intro hnil
  rw [hnil] at hmem
  exact absurd hmem (List.not_mem_nil _)

/-- On a grid with an empty cell, `random_cell` succeeds and writes 2 or 4
(by the oracle `four`) into the empty cell selected by the oracle `k`. -/
theorem random_cell_spec {g : Grid} (k : Nat) (four : Bool)
    (h : emptyCells g ≠ []) :
    ∃ i j, (i, j) ∈ emptyCells g ∧
      random_cell g k four = some (setCell g i j (if four then 4 else 2)) := by
  have hlen : 0 < (emptyCells g).length := List.length_pos.mpr h
  have hk : k % (emptyCells g).length < (emptyCells g).length :=
    Nat.mod_lt _ hlen
  refine ⟨((emptyCells g).getD (k % (emptyCells g).length) (0, 0)).1,
    ((emptyCells g).getD (k % (emptyCells g).length) (0, 0)).2, ?_, ?_⟩
  · have hmem : (emptyCells g).getD (k % (emptyCells g).length) (0, 0) ∈
        emptyCells g := by
      rw [List.getD_eq_getElem _ _ hk]
      exact List.getElem_mem hk
    simpa using hmem
  · simp only [random_cell]
    rw [if_neg h]

theorem getD_set_eq {α : Type} (l : List α) (i : Nat) (x d : α)
    (h : i < l.length) : (l.set i x).getD i d = x := by
  simp [List.getD_eq_getElem?_getD, List.getElem?_set_self, h]

theorem getD_set_ne {α : Type} (l : List α) {i j : Nat} (x d : α) (h : i ≠ j) :
    (l.set i x).getD j d = l.getD j d := by
  simp [List.getD_eq_getElem?_getD, List.getElem?_set_ne h]

theorem cellAt_setCell_self {g : Grid} {i j : Nat} (v : Nat)
    (hi : i < g.length) (hj : j < (g.getD i []).length) :
    cellAt (setCell g i j v) i j = v := by
  unfold cellAt setCell
  rw [getD_set_eq _ _ _ _ hi, getD_set_eq _ _ _ _ hj]

theorem cellAt_setCell_other {g : Grid} {i j : Nat} (v : Nat) {a b : Nat}
    (h : ¬(a = i ∧ b = j)) :
    cellAt (setCell g i j v) a b = cellAt g a b := by
  unfold cellAt setCell
  by_cases hai : a = i
  · subst hai
    have hbj : b ≠ j := fun hb => h ⟨rfl, hb⟩
    by_cases hlen : a < g.length
    · rw [getD_set_eq _ _ _ _ hlen, getD_set_ne _ _ _ (fun he => hbj he.symm)]
    · rw [List.set_eq_of_length_le (Nat.le_of_not_lt hlen)]
  · rw [getD_set_ne _ _ _ (fun he => hai he.symm)]

/-- Models `moveDir` reporting `moved = True` implies the game was in `Playing`
state, the transform itself reported a change, and the resulting grid is the
transformed grid with one random cell spawned. -/
theorem moveDir_grid_of_moved (s : GameState) (d : Direction) (k : Nat)
    (four : Bool) (hm : (moveDir d s k four).2 = true) :
    s.game_end = false ∧ s.won = false ∧
    (transformed d s.gridCell).2.2 = true ∧
    (moveDir d s k four).1.gridCell =
      spawn (transformed d s.gridCell).1 k four := by
  have hms : (moveStep d s k four).2 = true := by
    by_contra hc
    rw [Bool.not_eq_true] at hc
    simp only [moveDir] at hm
    simp [hc] at hm
  have hterm : (s.game_end || s.won) = false := by
    by_contra hc
    rw [Bool.not_eq_false] at hc
    have hsnd : (moveStep d s k four).2 = false := by
      simp only [moveStep]
      simp [hc]
    rw [hsnd] at hms
    exact Bool.false_ne_true hms
  have he : s.game_end = false := by
    rcases Bool.or_eq_false_iff.mp hterm with ⟨h1, -⟩
    exact h1
  have hw : s.won = false := by
    rcases Bool.or_eq_false_iff.mp hterm with ⟨-, h2⟩
    exact h2
  have hflag : (transformed d s.gridCell).2.2 = true := by
    by_contra hc
    rw [Bool.not_eq_true] at hc
    have hsnd : (moveStep d s k four).2 = false := by
      simp only [moveStep, save_undo]
      simp [hterm, hc]
    rw [hsnd] at hms
    exact Bool.false_ne_true hms
  have hgrid : (moveStep d s k four).1.gridCell =
      spawn (transformed d s.gridCell).1 k four := by
    simp only [moveStep, save_undo]
    simp [hterm, hflag]
  refine ⟨he, hw, hflag, ?_⟩
  simp only [moveDir]
  rw [hms]
  simp only [if_pos rfl, if_true]
  rcases after_move_updates_frame (moveStep d s k four).1 with ⟨hg, -⟩
  rw [hg]
  exact hgrid

/-- C6 — on every accepted move, `random_cell` cannot fail (the transformed
grid always has an empty cell), and the post-move grid is exactly the
transformed grid with ONE previously-empty cell set to 2 or 4 (by the 10%
oracle), every other cell holding exactly the value the transform produced. -/
theorem accepted_move_spawns_exactly_one_cell
    (s : GameState) (d : Direction) (k : Nat) (four : Bool)
    (hm : (moveDir d s k four).2 = true) :
    emptyCells (transformed d s.gridCell).1 ≠ [] ∧
    ∃ i j, (i, j) ∈ emptyCells (transformed d s.gridCell).1 ∧
      cellAt (transformed d s.gridCell).1 i j = 0 ∧
      (moveDir d s k four).1.gridCell =
        setCell (transformed d s.gridCell).1 i j (if four then 4 else 2) ∧
      ((if four then 4 else 2) = 2 ∨ (if four then 4 else 2) = 4) ∧
      cellAt (moveDir d s k four).1.gridCell i j = (if four then 4 else 2) ∧
      ∀ a b, ¬(a = i ∧ b = j) →
        cellAt (moveDir d s k four).1.gridCell a b =
          cellAt (transformed d s.gridCell).1 a b := by
  obtain ⟨he, hw, hflag, hgrid⟩ := moveDir_grid_of_moved s d k four hm
  have hz : ∃ r ∈ (transformed d s.gridCell).1, 0 ∈ r := transformed_zero hflag
  have hne : emptyCells (transformed d s.gridCell).1 ≠ [] := emptyCells_ne_nil hz
  obtain ⟨i, j, hmem, hrc⟩ := random_cell_spec k four hne
  obtain ⟨hi, hj, hz0⟩ := mem_emptyCells.mp hmem
  have hspawn : spawn (transformed d s.gridCell).1 k four =
      setCell (transformed d s.gridCell).1 i j (if four then 4 else 2) := by
    rw [spawn, hrc]
  refine ⟨hne, i, j, hmem, hz0, ?_, ?_, ?_, ?_⟩
  · rw [hgrid, hspawn]
  · cases four <;> simp
  · rw [hgrid, hspawn]
    exact cellAt_setCell_self _ hi hj
  · intro a b hab
    rw [hgrid, hspawn]
    exact cellAt_setCell_other _ hab

/-- Witness for C6 at a concrete accepted move. -/
theorem accepted_move_spawns_exactly_one_cell_witness :
    (moveDir .left { initState with
        gridCell := [[2,2,0,0],[0,0,0,0],[0,0,0,0],[0,0,0,0]] } 0 false).2
      = true ∧
    (emptyCells (transformed .left ({ initState with
        gridCell := [[2,2,0,0],[0,0,0,0],[0,0,0,0],[0,0,0,0]] } :
          GameState).gridCell).1 ≠ [] ∧
      ∃ i j, (i, j) ∈ emptyCells (transformed .left ({ initState with
          gridCell := [[2,2,0,0],[0,0,0,0],[0,0,0,0],[0,0,0,0]] } :
            GameState).gridCell).1 ∧
        cellAt (transformed .left ({ initState with
          gridCell := [[2,2,0,0],[0,0,0,0],[0,0,0,0],[0,0,0,0]] } :
            GameState).gridCell).1 i j = 0 ∧
        (moveDir .left { initState with
          gridCell := [[2,2,0,0],[0,0,0,0],[0,0,0,0],[0,0,0,0]] } 0
            false).1.gridCell =
          setCell (transformed .left ({ initState with
            gridCell := [[2,2,0,0],[0,0,0,0],[0,0,0,0],[0,0,0,0]] } :
              GameState).gridCell).1 i j (if false then 4 else 2) ∧
        ((if false then 4 else 2) = 2 ∨ (if false then 4 else 2) = 4) ∧
        cellAt (moveDir .left { initState with
          gridCell := [[2,2,0,0],[0,0,0,0],[0,0,0,0],[0,0,0,0]] } 0
            false).1.gridCell i j = (if false then 4 else 2) ∧
        ∀ a b, ¬(a = i ∧ b = j) →
          cellAt (moveDir .left { initState with
            gridCell := [[2,2,0,0],[0,0,0,0],[0,0,0,0],[0,0,0,0]] } 0
              false).1.gridCell a b =
            cellAt (transformed .left ({ initState with
              gridCell := [[2,2,0,0],[0,0,0,0],[0,0,0,0],[0,0,0,0]] } :
                GameState).gridCell).1 a b) :=
  ⟨by decide,
   accepted_move_spawns_exactly_one_cell { initState with
     gridCell := [[2,2,0,0],[0,0,0,0],[0,0,0,0],[0,0,0,0]] } .left 0 false
     (by decide)⟩

/-! Section: Power-of-two invariant (C8) -/

/-- Every non-zero cell value is a power of two that is at least 2. -/
def Pow2Cell (v : Nat) : Prop := v ≠ 0 → ∃ k : Nat, v = 2 ^ (k + 1)

/-- The invariant, on a grid. -/
def GridPow2 (g : Grid) : Prop := ∀ r ∈ g, ∀ v ∈ r, Pow2Cell v

/-- The invariant on a whole game state; it covers the undo snapshot, since
`undo` copies the snapshot back into the grid. -/
def StatePow2 (s : GameState) : Prop :=
  GridPow2 s.gridCell ∧ ∀ pg, s.prev_grid = some pg → GridPow2 pg

theorem pow2Cell_zero : Pow2Cell 0 := fun hz => absurd rfl hz

theorem pow2Cell_double {v : Nat} (h : Pow2Cell v) (hv : v ≠ 0) :
    Pow2Cell (v * 2) := by
  intro _
  rcases h hv with ⟨k, rfl⟩
  exact ⟨k + 1, by ring⟩

theorem pow2_compressRow {r : List Nat} (h : ∀ v ∈ r, Pow2Cell v) :
    ∀ v ∈ compressRow r, Pow2Cell v := by
  intro v hv
  rcases List.mem_append.mp hv with hv | hv
  · exact h v (List.mem_filter.mp hv).1
  · rw [List.eq_of_mem_replicate hv]
    exact pow2Cell_zero

theorem pow2_mergeRowAux {a : Nat} {l : List Nat} (ha : Pow2Cell a)
    (hl : ∀ v ∈ l, Pow2Cell v) : ∀ v ∈ (mergeRowAux a l).1, Pow2Cell v := by
  induction l generalizing a with
  | nil =>
    intro v hv
    rw [show (mergeRowAux a []).1 = [a] from rfl] at hv
    rw [List.mem_singleton.mp hv]
    exact ha
  | cons b rest ih =>
    intro v hv
    by_cases hc : a = b ∧ a ≠ 0
    · rw [mergeRowAux_cons_pos _ hc] at hv
      rcases List.mem_cons.mp hv with rfl | hv
      · exact pow2Cell_double ha hc.2
      · exact ih pow2Cell_zero
          (fun w hw => hl w (List.mem_cons_of_mem _ hw)) v hv
    · rw [mergeRowAux_cons_neg _ hc] at hv
      rcases List.mem_cons.mp hv with rfl | hv
      · exact ha
      · exact ih (hl b (List.mem_cons_self _ _))
          (fun w hw => hl w (List.mem_cons_of_mem _ hw)) v hv

theorem pow2_mergeRow {r : List Nat} (h : ∀ v ∈ r, Pow2Cell v) :
    ∀ v ∈ (mergeRow r).1, Pow2Cell v := by
  cases r with
  | nil => intro v hv; exact absurd hv (List.not_mem_nil v)
  | cons a rest =>
    exact pow2_mergeRowAux (h a (List.mem_cons_self _ _))
      (fun v hv => h v (List.mem_cons_of_mem _ hv))

theorem gridPow2_leftPipe {g : Grid} (h : GridPow2 g) :
    GridPow2 (leftPipe g).1 := by
  intro r hr
  rw [show (leftPipe g).1 =
      ((g.map compressRow).map (fun t => (mergeRow t).1)).map compressRow
    from rfl] at hr
  rcases List.mem_map.mp hr with ⟨t2, ht2, rfl⟩
  rcases List.mem_map.mp ht2 with ⟨t1, ht1, rfl⟩
  rcases List.mem_map.mp ht1 with ⟨t0, ht0, rfl⟩
  exact pow2_compressRow (pow2_mergeRow (pow2_compressRow (h t0 ht0)))

theorem gridPow2_reverse {g : Grid} (h : GridPow2 g) :
    GridPow2 (reverseGrid g) := by
  intro r hr
  rcases List.mem_map.mp hr with ⟨t, ht, rfl⟩
  intro v hv
  exact h t ht v (List.mem_reverse.mp hv)

theorem gridPow2_transpose {g : Grid} (h : GridPow2 g) :
    GridPow2 (transposeGrid g) := by
  intro r hr v hv
  cases g with
  | nil => exact absurd hr (List.not_mem_nil _)
  | cons r0 rest =>
    rcases List.mem_map.mp hr with ⟨j, -, rfl⟩
    rcases List.mem_map.mp hv with ⟨t, ht, rfl⟩
    by_cases hj : j < t.length
    · rw [List.getD_eq_getElem _ _ hj]
      exact h t ht _ (List.getElem_mem hj)
    · have hz : t.getD j 0 = 0 := by
        rw [List.getD_eq_getElem?_getD,
          List.getElem?_eq_none (Nat.le_of_not_lt hj)]
        rfl
      rw [hz]
      exact pow2Cell_zero

theorem gridPow2_transformed {g : Grid} (d : Direction) (h : GridPow2 g) :
    GridPow2 (transformed d g).1 := by
  cases d with
  | left => exact gridPow2_leftPipe h
  | right => exact gridPow2_reverse (gridPow2_leftPipe (gridPow2_reverse h))
  | up => exact gridPow2_transpose (gridPow2_leftPipe (gridPow2_transpose h))
  | down => exact gridPow2_transpose (gridPow2_reverse
      (gridPow2_leftPipe (gridPow2_reverse (gridPow2_transpose h))))

theorem gridPow2_setCell {g : Grid} {i j v : Nat} (h : GridPow2 g)
    (hv : Pow2Cell v) : GridPow2 (setCell g i j v) := by
  intro r hr w hw
  rcases List.mem_or_eq_of_mem_set hr with hr | rfl
  · exact h r hr w hw
  · rcases List.mem_or_eq_of_mem_set hw with hw | rfl
    · by_cases hi : i < g.length
      · have hrow : g.getD i [] ∈ g := by
          rw [List.getD_eq_getElem _ _ hi]
          exact List.getElem_mem hi
        exact h _ hrow w hw
      · rw [List.getD_eq_getElem?_getD,
          List.getElem?_eq_none (Nat.le_of_not_lt hi)] at hw
        exact absurd hw (List.not_mem_nil w)
    · exact hv

theorem pow2_spawn_val (four : Bool) : Pow2Cell (if four then 4 else 2) := by
  cases four
  · exact fun _ => ⟨0, rfl⟩
  · exact fun _ => ⟨1, rfl⟩

theorem gridPow2_spawn {g : Grid} (k : Nat) (four : Bool) (h : GridPow2 g) :
    GridPow2 (spawn g k four) := by
  unfold spawn
  cases hrc : random_cell g k four with
  | none => exact h
  | some g2 =>
    show GridPow2 g2
    simp only [random_cell] at hrc
    by_cases hne : emptyCells g = []
    · rw [if_pos hne] at hrc
      cases hrc
    · rw [if_neg hne] at hrc
      rw [← Option.some.inj hrc]
      exact gridPow2_setCell h (pow2_spawn_val four)

theorem gridPow2_zeroGrid : GridPow2 (List.replicate 4 (List.replicate 4 0)) := by
  intro r hr v hv
  rw [List.eq_of_mem_replicate hr] at hv
  rw [List.eq_of_mem_replicate hv]
  exact pow2Cell_zero

theorem statePow2_after_move_updates (u : GameState) (h : StatePow2 u) :
    StatePow2 (after_move_updates u) := by
  obtain ⟨hg, hp⟩ := h
  rcases after_move_updates_frame u with ⟨h1, -, -, h4, -⟩
  constructor
  · rw [h1]; exact hg
  · intro pg hpg
    rw [h4] at hpg
    exact hp pg hpg

theorem statePow2_moveStep (s : GameState) (d : Direction) (k : Nat)
    (four : Bool) (h : StatePow2 s) : StatePow2 (moveStep d s k four).1 := by
  obtain ⟨hg, hp⟩ := h
  simp only [moveStep, save_undo]
  split_ifs with h1 h2
  · exact ⟨hg, hp⟩
  · constructor
    · exact gridPow2_spawn _ _ (gridPow2_transformed _ hg)
    · intro pg hpg
      have hpg2 : some s.gridCell = some pg := hpg
      rw [← Option.some.inj hpg2]
      exact hg
  · constructor
    · exact gridPow2_transformed _ hg
    · intro pg hpg
      have hpg2 : some s.gridCell = some pg := hpg
      rw [← Option.some.inj hpg2]
      exact hg

theorem statePow2_moveDir (s : GameState) (d : Direction) (k : Nat)
    (four : Bool) (h : StatePow2 s) : StatePow2 (moveDir d s k four).1 := by
  simp only [moveDir]
  split_ifs with hm
  · exact statePow2_after_move_updates _ (statePow2_moveStep s d k four h)
  · exact statePow2_moveStep s d k four h

theorem statePow2_undo (s : GameState) (h : StatePow2 s) :
    StatePow2 (undo s) := by
  obtain ⟨hg, hp⟩ := h
  cases hpg : s.prev_grid with
  | none => rw [undo_of_prev_none hpg]; exact ⟨hg, hp⟩
  | some pg =>
    rw [undo_of_prev_some hpg]
    refine ⟨hp pg hpg, ?_⟩
    intro pg2 hpg2
    have hpg3 : (none : Option Grid) = some pg2 := hpg2
    cases hpg3

theorem statePow2_reset (s : GameState) (k1 : Nat) (f1 : Bool) (k2 : Nat)
    (f2 : Bool) : StatePow2 (reset s k1 f1 k2 f2) := by
  constructor
  · exact gridPow2_spawn _ _ (gridPow2_spawn _ _ gridPow2_zeroGrid)
  · intro pg hpg
    have hpg2 : (none : Option Grid) = some pg := hpg
    cases hpg2

theorem statePow2_start (s : GameState) (k1 : Nat) (f1 : Bool) (k2 : Nat)
    (f2 : Bool) (h : StatePow2 s) : StatePow2 (start s k1 f1 k2 f2) := by
  obtain ⟨hg, hp⟩ := h
  exact ⟨gridPow2_spawn _ _ (gridPow2_spawn _ _ hg), fun pg hpg => hp pg hpg⟩

theorem statePow2_init : StatePow2 initState :=
  ⟨gridPow2_zeroGrid, fun pg hpg => by cases hpg⟩

/-- C8 — every non-zero cell value being a power of two ≥ 2 is an invariant:
it holds in the initial state, after `start` and `reset`, and is preserved by
spawning, by every move request in every direction, and by `undo` (whose
snapshot the invariant covers). -/
theorem pow2_invariant_preserved :
    StatePow2 initState ∧
    (∀ s k1 f1 k2 f2, StatePow2 s → StatePow2 (start s k1 f1 k2 f2)) ∧
    (∀ s k1 f1 k2 f2, StatePow2 (reset s k1 f1 k2 f2)) ∧
    (∀ (g : Grid) k four, GridPow2 g → GridPow2 (spawn g k four)) ∧
    (∀ s d k four, StatePow2 s → StatePow2 (moveDir d s k four).1) ∧
    (∀ s, StatePow2 s → StatePow2 (undo s)) :=
  ⟨statePow2_init,
   fun s k1 f1 k2 f2 => statePow2_start s k1 f1 k2 f2,
   statePow2_reset,
   fun _ k four h => gridPow2_spawn k four h,
   fun s d k four => statePow2_moveDir s d k four,
   statePow2_undo⟩

/-- Witness for C8: the invariant propagates through a concrete `undo` from
the initial state. -/
theorem pow2_invariant_preserved_witness : StatePow2 (undo initState) :=
  pow2_invariant_preserved.2.2.2.2.2 initState pow2_invariant_preserved.1

/-- C10 — `undo()` modifies only the grid, the score, and the undo snapshot:
the `won` and `end` flags, the move counter, the best score and the target
are unchanged. -/
theorem undo_modifies_only_grid_score_snapshot (s : GameState) :
    (undo s).game_end = s.game_end ∧ (undo s).won = s.won ∧
    (undo s).move_count = s.move_count ∧
    (undo s).best_score = s.best_score ∧ (undo s).target = s.target := by
  cases h : s.prev_grid with
  | none => rw [undo_of_prev_none h]; exact ⟨rfl, rfl, rfl, rfl, rfl⟩
  | some pg => rw [undo_of_prev_some h]; exact ⟨rfl, rfl, rfl, rfl, rfl⟩

/-- C9 — a move request never decreases the score, in any state and any
direction. -/
theorem move_never_decreases_score (s : GameState) (d : Direction) (k : Nat)
    (four : Bool) : s.score ≤ (moveDir d s k four).1.score := by
  have hm : s.score ≤ (moveStep d s k four).1.score := by
    simp only [moveStep, save_undo]
    split_ifs <;> simp [Nat.le_add_right]
  simp only [moveDir]
  split_ifs with h
  · rcases after_move_updates_frame (moveStep d s k four).1 with ⟨-, hs, -⟩
    rw [hs]; exact hm
  · exact hm

/-- C5 — when the `won` or `end` flag is set, a move request in any direction
returns `False` and changes nothing at all: the state is returned intact. -/
theorem terminal_move_is_noop (s : GameState) (d : Direction) (k : Nat)
    (four : Bool) (h : s.game_end = true ∨ s.won = true) :
    moveDir d s k four = (s, false) := by
  have hterm : (s.game_end || s.won) = true := by
    rcases h with h | h <;> simp [h]
  unfold moveDir moveStep
  rw [hterm]
  simp

/-- Witness for C5 at a concrete lost state. -/
theorem terminal_move_is_noop_witness :
    ({ initState with game_end := true }.game_end = true ∨
      { initState with game_end := true }.won = true) ∧
    moveDir .left { initState with game_end := true } 0 false =
      ({ initState with game_end := true }, false) :=
  ⟨Or.inl rfl,
   terminal_move_is_noop { initState with game_end := true } .left 0 false
     (Or.inl rfl)⟩

/-- C4 — `undo()` immediately after a move request in the `Playing` state
restores exactly the pre-move grid and score and clears the snapshot, and a
second consecutive `undo()` changes nothing. -/
theorem undo_after_move (s : GameState) (d : Direction) (k : Nat) (four : Bool)
    (he : s.game_end = false) (hw : s.won = false) :
    (undo (moveDir d s k four).1).gridCell = s.gridCell ∧
    (undo (moveDir d s k four).1).score = s.score ∧
    (undo (moveDir d s k four).1).prev_grid = none ∧
    (undo (moveDir d s k four).1).prev_score = 0 ∧
    undo (undo (moveDir d s k four).1) = undo (moveDir d s k four).1 := by
  rcases moveStep_playing s d k four he hw with ⟨-, -, hp, hps, -⟩
  have hprev : (moveDir d s k four).1.prev_grid = some s.gridCell := by
    simp only [moveDir]
    split_ifs
    · rcases after_move_updates_frame (moveStep d s k four).1 with ⟨-, -, -, h4, -⟩
      simpa [h4] using hp
    · exact hp
  have hpscore : (moveDir d s k four).1.prev_score = s.score := by
    simp only [moveDir]
    split_ifs
    · rcases after_move_updates_frame (moveStep d s k four).1 with ⟨-, -, -, -, h5, -⟩
      simpa [h5] using hps
    · exact hps
  rw [undo_of_prev_some hprev, hpscore]
  refine ⟨rfl, rfl, rfl, rfl, ?_⟩
  exact undo_of_prev_none rfl

/-- Witness for C4: a concrete playing state and move. -/
theorem undo_after_move_witness :
    initState.game_end = false ∧ initState.won = false ∧
    ((undo (moveDir .left { initState with
        gridCell := [[2,2,0,0],[0,0,0,0],[0,0,0,0],[0,0,0,0]] } 0 false).1).gridCell
      = [[2,2,0,0],[0,0,0,0],[0,0,0,0],[0,0,0,0]] ∧
     (undo (moveDir .left { initState with
        gridCell := [[2,2,0,0],[0,0,0,0],[0,0,0,0],[0,0,0,0]] } 0 false).1).score = 0 ∧
     (undo (moveDir .left { initState with
        gridCell := [[2,2,0,0],[0,0,0,0],[0,0,0,0],[0,0,0,0]] } 0 false).1).prev_grid = none ∧
     (undo (moveDir .left { initState with
        gridCell := [[2,2,0,0],[0,0,0,0],[0,0,0,0],[0,0,0,0]] } 0 false).1).prev_score = 0 ∧
     undo (undo (moveDir .left { initState with
        gridCell := [[2,2,0,0],[0,0,0,0],[0,0,0,0],[0,0,0,0]] } 0 false).1)
       = undo (moveDir .left { initState with
        gridCell := [[2,2,0,0],[0,0,0,0],[0,0,0,0],[0,0,0,0]] } 0 false).1) :=
  ⟨rfl, rfl,
   undo_after_move { initState with
     gridCell := [[2,2,0,0],[0,0,0,0],[0,0,0,0],[0,0,0,0]] } .left 0 false rfl rfl⟩

end Game2048
